import Mathlib

/-!
Verification of the Stone `python_client` backend
(`src/stone/backends/python_client.py`).

The backend walks an already-validated IR (namespaces, routes, data types)
and emits one Python method per route variant.  We shallowly embed the pure
decision logic of the module: the type-documentation formatter
(`_format_type_in_doc`), the doc-reference resolver (`_docf`), the
default-value renderer (`_generate_python_value`), the method-signature
builder (`_generate_route_method_decl`), the docstring composer
(`_generate_docstring_for_func`) and the per-route variant synthesis in
`_generate_routes` / `_generate_route_helper`.

Emission is modelled as a list of logical lines (line wrapping and
indentation are delegated by the source to external emitter primitives and
are abstracted away here).  Python exceptions reachable in the embedded
code paths (AssertionError, AttributeError on `None`, ValueError from
unpacking or `int()`, RuntimeError on an unknown doc tag) are modelled by
`Option`/`none`.
-/

namespace StonePy

/-- Python truthiness of an optional string (`None` and `""` are falsy). -/
def strTruthy : Option String → Bool
  | none => false
  | some s => s ≠ ""

/-- `dict.get` over a small association list, first match wins
(models `route.attrs.get(key)`). -/
def attrsGet (attrs : List (String × String)) (key : String) : Option String :=
  match attrs with
  | [] => none
  | (k, v) :: rest => if k = key then some v else attrsGet rest key

/-- Split a character list at the FIRST occurrence of `c`
(models Python `s.split(c, 1)` when it yields two parts; `none` when `c`
does not occur). -/
def splitFirstAux (c : Char) : List Char → Option (List Char × List Char)
  | [] => none
  | x :: xs =>
    if x = c then some ([], xs)
    else (splitFirstAux c xs).map (fun p => (x :: p.1, p.2))

/-- Split a character list at the LAST occurrence of `c`
(models Python `s.rsplit(c, 1)` when it yields two parts; `none` when `c`
does not occur, where the source's 2-element unpacking raises ValueError). -/
def rsplitLastAux (c : Char) : List Char → Option (List Char × List Char)
  | [] => none
  | x :: xs =>
    match rsplitLastAux c xs with
    | some (a, b) => some (x :: a, b)
    | none => if x = c then some ([], xs) else none

/-- Python `str.rsplit(' ', 1)` restricted to the two-part case. -/
def rsplitLastSpace (s : String) : Option (String × String) :=
  (rsplitLastAux ' ' s.data).map (fun p => (String.mk p.1, String.mk p.2))

/-- Python `str.capitalize()`: first character upper-cased, the rest
lower-cased. -/
def pyCapitalize (s : String) : String :=
  match s.data with
  | [] => ""
  | c :: rest => String.mk (c.toUpper :: rest.map Char.toLower)

/-- Python `s.split(c)` on a single-character separator: splits at every
occurrence, keeping empty parts (`""` yields `[""]`). -/
def pySplitChar (c : Char) : List Char → List (List Char)
  | [] => [[]]
  | x :: xs =>
    if x = c then [] :: pySplitChar c xs
    else
      match pySplitChar c xs with
      | [] => [[x]]
      | h :: t => (x :: h) :: t

/-- Python `s.split(c)` over strings. -/
def pySplit (s : String) (c : Char) : List String :=
  (pySplitChar c s.data).map String.mk

/-- ASCII whitespace as recognized by Python `str.strip()`. -/
def isPySpace (c : Char) : Bool :=
  c = ' ' || c = '\t' || c = '\n' || c = '\r' || c = '\x0b' || c = '\x0c'

/-- Python `str.strip()`: drop leading and trailing whitespace. -/
def pyStrip (s : String) : String :=
  String.mk (((s.data.dropWhile isPySpace).reverse.dropWhile isPySpace).reverse)

/-- Python `str.lower()` (ASCII case folding suffices for auth tokens). -/
def pyLower (s : String) : String := String.mk (s.data.map Char.toLower)

/-- Python `tok.strip().lower()` as applied to auth tokens. -/
def normToken (s : String) : String := pyLower (pyStrip s)

/-- Decimal accumulator for `pyInt`. -/
def pyIntAux (acc : Nat) : List Char → Option Nat
  | [] => some acc
  | c :: rest =>
    if c.isDigit then pyIntAux (acc * 10 + (c.toNat - 48)) rest else none

/-- Python `int(s)` on the plain nonnegative decimal strings that route
version suffixes are; any other shape raises ValueError (`none`).
(Python also tolerates signs and surrounding whitespace, which never occur
in a well-formed `:route:` version suffix.) -/
def pyInt (s : String) : Option Nat :=
  match s.data with
  | [] => none
  | l => pyIntAux 0 l

/-- The last dotted component (`s.rsplit('.', 1)[-1]`). -/
def lastDotComponent (s : String) : String :=
  match rsplitLastAux '.' s.data with
  | some (_, b) => String.mk b
  | none => s

/-! ## The IR data model (read-only input of the backend)

`DataType` mirrors `stone.ir` as consumed by this backend.  A struct
carries its inherited fields and its own fields separately:
`fields` in the source is the own fields, `all_fields` is
inherited ++ own.  A union carries its variant fields (its `.fields`).
Field types that are themselves structs or unions are only ever consulted
for their identity (`is_user_defined_type`, `.namespace.name`, class name),
so the recursion through struct fields is genuine but shallow uses only
need constructor identity. -/

/-- A default value of a field: either a reference to a union tag
(`TagRef`, carrying its recorded union type's namespace, class name and the
tag name) or a plain literal, carried in the rendered form the external
literal formatter `fmt_obj` would produce for it. -/
inductive DefaultVal where
  | tagRef (unionNamespaceName : String) (unionName : String) (tagName : String)
  | literal (rendered : String)
deriving Repr, DecidableEq

mutual
inductive DataType where
  | void : DataType
  | primitive : String → DataType
  | struct_ : String → String → List Field → List Field → Option String → DataType
  | union_ : String → String → List Field → Option String → DataType
  | list : DataType → DataType
  | map : DataType → DataType → DataType
  | nullable : DataType → DataType
deriving Repr

inductive Field where
  | mk : String → DataType → Option String → Bool → DefaultVal → Field
deriving Repr
end

def Field.name : Field → String
  | .mk n _ _ _ _ => n

def Field.dataType : Field → DataType
  | .mk _ t _ _ _ => t

def Field.doc : Field → Option String
  | .mk _ _ d _ _ => d

def Field.hasDefault : Field → Bool
  | .mk _ _ _ h _ => h

def Field.defaultVal : Field → DefaultVal
  | .mk _ _ _ _ v => v

/-- `is_void_type`. -/
def isVoidType : DataType → Bool
  | .void => true
  | _ => false

/-- `is_struct_type`. -/
def isStructType : DataType → Bool
  | .struct_ .. => true
  | _ => false

/-- `is_union_type`. -/
def isUnionType : DataType → Bool
  | .union_ .. => true
  | _ => false

/-- `is_nullable_type`. -/
def isNullableType : DataType → Bool
  | .nullable _ => true
  | _ => false

/-- `is_user_defined_type` (structs and unions). -/
def isUserDefinedType : DataType → Bool
  | .struct_ .. => true
  | .union_ .. => true
  | _ => false

/-- `data_type.namespace.name` for user-defined types (only consulted on
structs and unions in the embedded code paths). -/
def DataType.namespaceName : DataType → String
  | .struct_ ns _ _ _ _ => ns
  | .union_ ns _ _ _ => ns
  | _ => ""

/-- `data_type.fields`: own fields of a struct, variant fields of a union.
The source only reads `.fields` on structs, unions (and guards Void); other
shapes would raise AttributeError and are unreachable for route argument
and error types in a well-formed IR. -/
def fieldsOf : DataType → List Field
  | .struct_ _ _ _ own _ => own
  | .union_ _ _ vs _ => vs
  | _ => []

/-- `data_type.all_fields`: inherited fields followed by own fields. -/
def allFieldsOf : DataType → List Field
  | .struct_ _ _ inh own _ => inh ++ own
  | .union_ _ _ vs _ => vs
  | _ => []

/-- `data_type.doc` of a struct or union. -/
def DataType.docOf : DataType → Option String
  | .struct_ _ _ _ _ d => d
  | .union_ _ _ _ d => d
  | _ => none

/-- A route of the IR, with the parts this backend reads. -/
structure Route where
  name : String
  version : Nat
  argDataType : DataType
  resultDataType : DataType
  errorDataType : DataType
  doc : Option String
  attrs : List (String × String)

/-- Generation-time configuration (the `-t` and `-e` command line options). -/
structure Cfg where
  typesPackage : String
  errorClassPath : String

/-! ## Modelled naming helpers

The casing helpers `fmt_underscores` (stone/backends/helpers.py),
`fmt_func`, `fmt_namespace`, `fmt_class`, `fmt_var`, `fmt_type`, `fmt_obj`
(stone/backends/python_helpers.py) and `class_name_for_data_type`
(stone/backends/python_types.py) are imported by the source but are not
part of it.  The spec declares identifier-casing formatters out of scope
("naming-convention formatters (identifier casing rules)" are consumed as
already-correct primitives), so they are modelled here from the spec's
contracts alone. -/

/-- Modelled from the spec: `fmt_underscores` (stone.backends.helpers, not
under src/) — the underscore-casing formatter.  The spec treats identifier
casing as an out-of-scope primitive and gives no transformation rule, so it
is modelled as the identity, which is its behaviour on the
already-canonical lowercase snake_case names the IR provides. -/
def fmt_underscores (name : String) : String := name

/-- Modelled from the spec: `fmt_func` (stone.backends.python_helpers, not
under src/) — the "version-qualified route name" of spec §4.4: the
underscore-cased name, with a version marker appended for versions above
the default version 1 (spec §4.3: "default version is 1 if absent"). -/
def fmt_func (name : String) (version : Nat) : String :=
  fmt_underscores name ++ (if 1 < version then "_v" ++ toString version else "")

/-- Modelled from the spec: `fmt_namespace` (stone.backends.python_helpers,
not under src/) — namespace-identifier casing, identity on canonical
names. -/
def fmt_namespace (name : String) : String := name

/-- Modelled from the spec: `fmt_class` (stone.backends.python_helpers, not
under src/) — class-identifier casing, identity on canonical names. -/
def fmt_class (name : String) : String := name

/-- Modelled from the spec: `fmt_var` (stone.backends.python_helpers, not
under src/) — variable-identifier casing, identity on canonical names. -/
def fmt_var (name : String) : String := name

/-- Modelled from the spec: `class_name_for_data_type`
(stone.backends.python_types, not under src/) — the class name of a
user-defined type ("UnionClassName" in spec §4.2), here of the union a
`TagRef` records. -/
def class_name_for_union (unionName : String) : String := fmt_class unionName

/-- Modelled from the spec: `fmt_type` (stone.backends.python_helpers, not
under src/) — "the primitive's canonical rendered name" (spec §4.1) for
primitives, the class name for user-defined types. -/
def fmt_type : DataType → String
  | .primitive n => n
  | .struct_ _ n _ _ _ => fmt_class n
  | .union_ _ n _ _ => fmt_class n
  | _ => ""

/-! ## `_format_type_in_doc` (spec §4.1, TypeDocFormatter) -/

/-- `_format_type_in_doc(namespace, data_type)`: renders a data type as a
Sphinx-recognizable documentation string.  The source dispatches on runtime
predicates in the order void / user-defined / nullable / list / map / else;
the constructors are disjoint so the match below is the same function. -/
def formatTypeInDoc (typesPackage nsName : String) : DataType → String
  | .void => "None"
  | .struct_ a b c d e =>
    ":class:`" ++ typesPackage ++ "." ++ nsName ++ "." ++
      fmt_type (.struct_ a b c d e) ++ "`"
  | .union_ a b c d =>
    ":class:`" ++ typesPackage ++ "." ++ nsName ++ "." ++
      fmt_type (.union_ a b c d) ++ "`"
  | .nullable inner =>
    "Nullable[" ++ formatTypeInDoc typesPackage nsName inner ++ "]"
  | .list elem =>
    "List[" ++ formatTypeInDoc typesPackage nsName elem ++ "]"
  | .map k v =>
    "Map[" ++ formatTypeInDoc typesPackage nsName k ++ ", " ++
      formatTypeInDoc typesPackage nsName v ++ "]"
  | .primitive n => fmt_type (.primitive n)

/-- Structural wrapper depth of a data type: each Nullable/List/Map wrapper
adds one level; leaves (Void, primitives, user-defined types) have depth
zero. -/
def wrapperDepth : DataType → Nat
  | .nullable t => wrapperDepth t + 1
  | .list t => wrapperDepth t + 1
  | .map k v => max (wrapperDepth k) (wrapperDepth v) + 1
  | _ => 0

/-- Bracket contribution of one character: `[` opens, `]` closes. -/
def chDelta (c : Char) : Int := if c = '[' then 1 else if c = ']' then -1 else 0

/-- Net bracket count of a character list. -/
def deltaL : List Char → Int
  | [] => 0
  | c :: t => chDelta c + deltaL t

/-- Maximal bracket nesting reached while scanning a character list
(the maximum of the net bracket count over all prefixes; at least 0). -/
def peakL : List Char → Int
  | [] => 0
  | c :: t => max 0 (chDelta c + peakL t)

/-- Bracket-nesting depth of a string. -/
def nestDepth (s : String) : Int := peakL s.data

/-- A string without square brackets. -/
def noBrkStr (s : String) : Bool := s.data.all (fun c => !(c = '[' || c = ']'))

/-- Every leaf of the type tree renders to a bracket-free string (IR names
are identifiers). -/
def fmtLeafOk (typesPackage nsName : String) : DataType → Bool
  | .nullable t => fmtLeafOk typesPackage nsName t
  | .list t => fmtLeafOk typesPackage nsName t
  | .map k v => fmtLeafOk typesPackage nsName k && fmtLeafOk typesPackage nsName v
  | t => noBrkStr (formatTypeInDoc typesPackage nsName t)

/-! ## `_generate_python_value` (spec §4.2, DefaultValueRenderer) -/

/-- `_generate_python_value(namespace, value)`: render a default value.
A `TagRef` renders as `fmt_namespace(namespace.name) . ClassName . tagName`
using the NAMESPACE PARAMETER; passing `None` for the namespace makes the
source crash on `namespace.name` (modelled by `none`).  Other values go
through the external literal formatter `fmt_obj`, modelled as the carried
rendered form. -/
def generatePythonValue (namespaceName : Option String) (value : DefaultVal) :
    Option String :=
  match value with
  | .tagRef _ unionName tagName =>
    match namespaceName with
    | some n =>
      some (fmt_namespace n ++ "." ++ class_name_for_union unionName ++ "." ++
        fmt_var tagName)
    | none => none
  | .literal rendered => some rendered

/-! ## `_generate_route_method_decl` (spec §4.4, MethodSignatureBuilder) -/

/-- One parameter of the method prototype for one struct field
(`_generate_route_method_decl`, the loop over `arg_data_type.all_fields`):
a Nullable-typed field defaults to `None`; otherwise a field with a default
gets the rendered default (the namespace passed to the renderer is the
field's own data type's namespace when that type is user-defined, else
`None`); otherwise the bare field name.  `none` models the crash when the
renderer is handed a `None` namespace together with a `TagRef`. -/
def paramOfField (f : Field) : Option String :=
  if isNullableType f.dataType then some (f.name ++ "=None")
  else if f.hasDefault then
    (generatePythonValue
        (if isUserDefinedType f.dataType then some f.dataType.namespaceName
         else none)
        f.defaultVal).map (fun v => f.name ++ "=" ++ v)
  else some f.name

/-- The full method name emitted by `_generate_route_method_decl`
(line 339-341): `fmt_underscores(namespace.name) ++ "_" ++
fmt_func(route.name ++ suffix, version)`. -/
def routeMethodFullName (nsName routeName : String) (version : Nat)
    (suffix : String) : String :=
  fmt_underscores nsName ++ "_" ++ fmt_func (routeName ++ suffix) version

/-- A generated method prototype: its full name and its ordered argument
list. -/
structure MethodDecl where
  fullName : String
  args : List String
deriving Repr, DecidableEq

/-- The parameters contributed by the argument data type (lines 314-337):
a struct's `all_fields` expanded per `paramOfField`, a single `arg` for a
union, nothing for Void, AssertionError (modelled `none`) otherwise. -/
def declFieldArgs : DataType → Option (List String)
  | .struct_ _ _ inh own _ => (inh ++ own).mapM paramOfField
  | .union_ .. => some ["arg"]
  | .void => some []
  | _ => none

/-- `_generate_route_method_decl`: `['self']`, then the extra leading args,
then `f` for a binary request body, then the argument type's contributed
parameters. -/
def routeMethodDecl (nsName : String) (r : Route) (argDataType : DataType)
    (requestBinaryBody : Bool) (methodNameSuffix : String)
    (extraArgs : List String) : Option MethodDecl :=
  let base := ["self"] ++ extraArgs ++ (if requestBinaryBody then ["f"] else [])
  (declFieldArgs argDataType).map (fun fa =>
    ⟨routeMethodFullName nsName r.name r.version methodNameSuffix, base ++ fa⟩)

/-! ## `_docf` (spec §4.3, DocReferenceResolver) -/

/-- The per-run context `_docf` reads: the shared current-namespace name
and the configured types package. -/
structure DocfCtx where
  curNamespaceName : String
  typesPackage : String

/-- `_docf(tag, val)`: convert one Babel doc reference into a
Sphinx-friendly annotation.  `none` models the RuntimeError on an unknown
tag, the ValueError of `rsplit` unpacking for a space-less `link` value,
and the ValueError of `int()` on a malformed `route` version suffix. -/
def docf (ctx : DocfCtx) (tag val : String) : Option String :=
  if tag = "type" then
    let fq := if val.data.contains '.' then val
              else ctx.curNamespaceName ++ "." ++ val
    some (":class:`" ++ ctx.typesPackage ++ "." ++ fq ++ "`")
  else if tag = "route" then
    let parsed : Option (String × Nat) :=
      match splitFirstAux ':' val.data with
      | some (a, b) => (pyInt (String.mk b)).map (fun v => (String.mk a, v))
      | none => some (val, 1)
    parsed.map (fun p =>
      if p.1.data.contains '.' then ":meth:`" ++ fmt_func p.1 p.2 ++ "`"
      else ":meth:`" ++ ctx.curNamespaceName ++ "_" ++ fmt_func p.1 p.2 ++ "`")
  else if tag = "link" then
    (rsplitLastSpace val).map (fun p => "`" ++ p.1 ++ " <" ++ p.2 ++ ">`_")
  else if tag = "val" then
    if val = "null" then some "None"
    else if val = "true" ∨ val = "false" then
      some ("``" ++ pyCapitalize val ++ "``")
    else some val
  else if tag = "field" then some ("``" ++ val ++ "``")
  else none

/-! ## `_generate_docstring_for_func` (spec §4.5, DocstringComposer) -/

/-- The fields consulted by the docstring composer (line 382):
`[] if is_void_type(arg_data_type) else arg_data_type.fields` — the OWN
fields of a struct, never the inherited ones. -/
def docFields (argDataType : DataType) : List Field :=
  if isVoidType argDataType then [] else fieldsOf argDataType

/-- Condition of the blank separator emitted before the parameter section
(lines 393-396): at least one explicit field or extra request parameter
follows AND an overview was written. -/
def blankSepBeforeParams (overview : Option String)
    (extraRequestArgs : List (String × Option String × String))
    (fields : List Field) : Bool :=
  (!extraRequestArgs.isEmpty || !fields.isEmpty) && strTruthy overview

/-- Condition of the blank separator emitted after the overview when no
parameter section follows (lines 449-452). -/
def blankSepAfterOverview (overview : Option String)
    (extraRequestArgs : List (String × Option String × String))
    (fields : List Field) : Bool :=
  strTruthy overview && !(!extraRequestArgs.isEmpty || !fields.isEmpty)

/-- One `:param ...:` line per extra request arg (lines 398-408); the type
label is included only when truthy. -/
def extraArgLine (e : String × Option String × String) : String :=
  if strTruthy e.2.1 then
    ":param " ++ e.2.1.getD "" ++ " " ++ e.1 ++ ": " ++ e.2.2
  else
    ":param " ++ e.1 ++ ": " ++ e.2.2

/-- Documentation lines for one struct field (lines 411-439): a field with
doc text gets a `:param` line (type inline for non-composite types, plus a
separate `:type` line for user-defined composite types); a field without
doc text gets a pure `:type` line. -/
def structFieldLines (cfg : Cfg) (nsName : String) (procDoc : String → String)
    (f : Field) : List String :=
  if strTruthy f.doc then
    if isUserDefinedType f.dataType then
      [":param " ++ f.name ++ ": " ++ procDoc (f.doc.getD ""),
       ":type " ++ f.name ++ ": " ++
         formatTypeInDoc cfg.typesPackage nsName f.dataType]
    else
      [":param " ++ formatTypeInDoc cfg.typesPackage nsName f.dataType ++ " " ++
        f.name ++ ": " ++ procDoc (f.doc.getD "")]
  else
    [":type " ++ f.name ++ ": " ++
      formatTypeInDoc cfg.typesPackage nsName f.dataType]

/-- Documentation lines for a union argument (lines 441-447). -/
def unionArgLines (cfg : Cfg) (nsName : String) (procDoc : String → String)
    (argDataType : DataType) : List String :=
  (if strTruthy argDataType.docOf then
    [":param arg: " ++ procDoc (argDataType.docOf.getD "")]
   else []) ++
  [":type arg: " ++ formatTypeInDoc cfg.typesPackage nsName argDataType]

/-- The `:rtype:` lines (lines 454-472); the two-element multiline list of
the extra-return-arg case is abstracted to one logical line. -/
def rtypeLines (cfg : Cfg) (nsName : String) (resultDataType : DataType)
    (extraReturnArg : Option String) : List String :=
  if strTruthy extraReturnArg then
    [":rtype: (" ++
      (if isVoidType resultDataType then "None"
       else formatTypeInDoc cfg.typesPackage nsName resultDataType) ++
      ", " ++ extraReturnArg.getD "" ++ ")"]
  else
    if isVoidType resultDataType then [":rtype: None"]
    else [":rtype: " ++ formatTypeInDoc cfg.typesPackage nsName resultDataType]

/-- The error section (lines 474-484): present only when the error type is
non-Void and has at least one field. -/
def raisesLines (cfg : Cfg) (nsName : String) (errorDataType : DataType) :
    List String :=
  if !isVoidType errorDataType && !(fieldsOf errorDataType).isEmpty then
    [":raises: :class:`" ++ cfg.errorClassPath ++ "`",
     "",
     "If this raises, " ++ lastDotComponent cfg.errorClassPath ++
       " will contain:",
     formatTypeInDoc cfg.typesPackage nsName errorDataType]
  else []

/-- `_generate_docstring_for_func`: the composed docstring as a list of
logical lines, or `none` when the source returns without emitting anything
(no own fields and no truthy overview — note the gate does NOT consult
`extra_request_args`).  `procDoc` abstracts
`self.process_doc(text, self._docf)` of the external scanner. -/
def genDoc (cfg : Cfg) (nsName : String)
    (argDataType resultDataType errorDataType : DataType)
    (overview : Option String)
    (extraRequestArgs : List (String × Option String × String))
    (extraReturnArg : Option String) (footer : Option String)
    (procDoc : String → String) : Option (List String) :=
  let fields := docFields argDataType
  if fields.isEmpty && !strTruthy overview then none
  else some (
    ["\"\"\""] ++
    (if strTruthy overview then [overview.getD ""] else []) ++
    (if !extraRequestArgs.isEmpty || !fields.isEmpty then
      (if blankSepBeforeParams overview extraRequestArgs fields then [""]
       else []) ++
      extraRequestArgs.map extraArgLine ++
      (if isStructType argDataType then
        fields.flatMap (structFieldLines cfg nsName procDoc)
       else if isUnionType argDataType then
        unionArgLines cfg nsName procDoc argDataType
       else [])
     else []) ++
    (if blankSepAfterOverview overview extraRequestArgs fields then [""]
     else []) ++
    rtypeLines cfg nsName resultDataType extraReturnArg ++
    raisesLines cfg nsName errorDataType ++
    (if strTruthy footer then ["", footer.getD ""] else []) ++
    ["\"\"\""])

/-! ## `_generate_routes` / `_generate_route_helper`
(spec §4.6, RouteVariantSynthesizer) -/

/-- The helper invocations the no-filter path performs for one route
(lines 184-187): the standard variant, plus the download-to-file variant
(`download_to_file = true`) when the route's `style` attr is `download`. -/
def stdVariants (r : Route) : List Bool :=
  [false] ++ (if attrsGet r.attrs "style" = some "download" then [true] else [])

/-- The for-with-break over the whitelist (lines 195-200): the first
whitelist entry found among the route's auth tokens triggers one standard
emission (with the one-or-two-variant rule) and stops the scan. -/
def authLoop (wl : List String) (tokens : List String) (r : Route) :
    List Bool :=
  match wl with
  | [] => []
  | b :: rest => if tokens.contains b then stdVariants r else authLoop rest tokens r

/-- The normalized whitelist parsed once per run from the `-w` option
(line 176-177). -/
def supportedAuthTypes (authTypeArg : Option String) : Option (List String) :=
  authTypeArg.map (fun s => (pySplit s ',').map normToken)

/-- The route's normalized auth tokens (line 194). -/
def routeAuthModes (authAttr : String) : List String :=
  (pySplit authAttr ',').map normToken

/-- The helper invocations `_generate_routes` performs for one route
(each list element is the `download_to_file` flag of one
`_generate_route_helper` call): with no whitelist every route yields its
standard variants; with a whitelist a route without an `auth` attr is
skipped, otherwise its normalized auth tokens are scanned against the
whitelist with first-match-wins. -/
def routeVariants (whitelist : Option (List String)) (r : Route) :
    List Bool :=
  match whitelist with
  | none => stdVariants r
  | some wl =>
    match attrsGet r.attrs "auth" with
    | none => []
    | some authAttr => authLoop wl (routeAuthModes authAttr) r

/-- The method prototype `_generate_route_helper` builds for one variant
(lines 211-230): the download-to-file variant asserts a download-style
route (violation modelled by `none`) and passes the `_to_file` suffix and
the extra leading `download_path` argument; the standard variant passes
neither.  `request_binary_body` is `style == upload`. -/
def routeHelperDecl (nsName : String) (r : Route) (downloadToFile : Bool) :
    Option MethodDecl :=
  let requestBinaryBody := attrsGet r.attrs "style" = some "upload"
  let responseBinaryBody := attrsGet r.attrs "style" = some "download"
  if downloadToFile && !responseBinaryBody then none
  else if downloadToFile then
    routeMethodDecl nsName r r.argDataType requestBinaryBody "_to_file"
      ["download_path"]
  else
    routeMethodDecl nsName r r.argDataType requestBinaryBody "" []

/-- The argument-construction statement of the method body
(lines 266-278): `arg = None` for Void, a constructor call listing ALL
fields (inherited included) for a Struct, nothing for a Union (the value is
passed through), AssertionError otherwise. -/
def bodyArgLines (argDataType : DataType) : Option (List String) :=
  match argDataType with
  | .void => some ["arg = None"]
  | .struct_ aNs aName inh own _ =>
    some ["arg = " ++ fmt_namespace aNs ++ "." ++ fmt_class aName ++ "(" ++
      String.intercalate ", " ((inh ++ own).map Field.name) ++ ")"]
  | .union_ .. => some []
  | _ => none

/-! ## Spec-side definition for the signature-builder refinement (C3) -/

/-- The spec's description of one parameter (spec §4.4): "if the field's
type is Nullable, parameter defaults to the null sentinel; else if
`has_default`, parameter defaults to `DefaultValueRenderer.render`; else
parameter is required (no default)" — stated as a total function to be
compared with the source-derived `paramOfField`. -/
def specParamOfField (f : Field) : String :=
  if isNullableType f.dataType then f.name ++ "=None"
  else if f.hasDefault then
    f.name ++ "=" ++
      (generatePythonValue
        (if isUserDefinedType f.dataType then some f.dataType.namespaceName
         else none)
        f.defaultVal).getD ""
  else f.name

/-- A field on which the default renderer cannot crash: a `TagRef` default
is only rendered together with a user-defined field type (guaranteed for
well-formed IR, where a tag reference defaults a field of the referenced
union type). -/
def fieldRenderOk (f : Field) : Bool :=
  isNullableType f.dataType || !f.hasDefault ||
    (match f.defaultVal with
     | .tagRef .. => isUserDefinedType f.dataType
     | .literal _ => true)

/-! ## Helper lemmas -/

theorem paramOfField_eq_spec (f : Field) (h : fieldRenderOk f = true) :
    paramOfField f = some (specParamOfField f) := by
  unfold fieldRenderOk at h
  unfold paramOfField specParamOfField
  by_cases hn : isNullableType f.dataType = true
  · simp [hn]
  · simp only [Bool.not_eq_true] at hn
    by_cases hd : f.hasDefault = true
    · rw [hn] at h
      simp only [Bool.false_or, hd, Bool.not_true, Bool.false_or] at h
      cases hv : f.defaultVal with
      | tagRef a b c =>
        rw [hv] at h
        have hu : isUserDefinedType f.dataType = true := h
        simp [hn, hd, hv, generatePythonValue, hu]
      | literal s =>
        simp [hn, hd, hv, generatePythonValue]
    · simp only [Bool.not_eq_true] at hd
      simp [hn, hd]

theorem mapM_paramOfField_eq (l : List Field)
    (h : ∀ f ∈ l, fieldRenderOk f = true) :
    l.mapM paramOfField = some (l.map specParamOfField) := by
  induction l with
  | nil => rfl
  | cons f t ih =>
    rw [List.mapM_cons, paramOfField_eq_spec f (h f (by simp)),
      ih (fun g hg => h g (by simp [hg]))]
    rfl

theorem splitFirstAux_of_not_mem {c : Char} {l : List Char} (h : c ∉ l) :
    splitFirstAux c l = none := by
  induction l with
  | nil => rfl
  | cons x t ih =>
    simp only [List.mem_cons, not_or] at h
    have hx : ¬x = c := fun hx => h.1 (by rw [hx])
    simp [splitFirstAux, hx, ih h.2]

theorem splitFirstAux_append {c : Char} {l₁ l₂ : List Char} (h : c ∉ l₁) :
    splitFirstAux c (l₁ ++ c :: l₂) = some (l₁, l₂) := by
  induction l₁ with
  | nil => simp [splitFirstAux]
  | cons x t ih =>
    simp only [List.mem_cons, not_or] at h
    have hx : ¬x = c := fun hx => h.1 (by rw [hx])
    simp [splitFirstAux, hx, ih h.2]

theorem rsplitLastAux_of_not_mem {c : Char} {l : List Char} (h : c ∉ l) :
    rsplitLastAux c l = none := by
  induction l with
  | nil => rfl
  | cons x t ih =>
    simp only [List.mem_cons, not_or] at h
    have hx : ¬x = c := fun hx => h.1 (by rw [hx])
    simp [rsplitLastAux, hx, ih h.2]

theorem rsplitLastAux_append {c : Char} (l₁ : List Char) {l₂ : List Char}
    (h : c ∉ l₂) :
    rsplitLastAux c (l₁ ++ c :: l₂) = some (l₁, l₂) := by
  induction l₁ with
  | nil =>
    simp [rsplitLastAux, rsplitLastAux_of_not_mem h]
  | cons x t ih =>
    simp [rsplitLastAux, ih]

theorem peakL_nonneg (l : List Char) : 0 ≤ peakL l := by
  cases l with
  | nil => exact le_refl 0
  | cons c t => exact le_max_left 0 _

theorem deltaL_append (a b : List Char) :
    deltaL (a ++ b) = deltaL a + deltaL b := by
  induction a with
  | nil => simp [deltaL]
  | cons c t ih => simp [deltaL, ih, add_assoc]

theorem peakL_append (a b : List Char) :
    peakL (a ++ b) = max (peakL a) (deltaL a + peakL b) := by
  induction a with
  | nil =>
    simp [peakL, deltaL, max_eq_right (peakL_nonneg b)]
  | cons c t ih =>
    show max 0 (chDelta c + peakL (t ++ b)) = _
    rw [ih]
    show _ = max (max 0 (chDelta c + peakL t)) (chDelta c + deltaL t + peakL b)
    rw [← max_add_add_left (chDelta c) (peakL t) (deltaL t + peakL b),
      ← max_assoc, ← add_assoc]

theorem chDelta_of_noBrk {c : Char} (h1 : c ≠ '[') (h2 : c ≠ ']') :
    chDelta c = 0 := by
  unfold chDelta
  rw [if_neg h1, if_neg h2]

theorem deltaL_peakL_of_noBrk {l : List Char}
    (h : ∀ c ∈ l, ¬(c = '[' ∨ c = ']')) : deltaL l = 0 ∧ peakL l = 0 := by
  induction l with
  | nil => exact ⟨rfl, rfl⟩
  | cons c t ih =>
    have hc := h c (by simp)
    have hz : chDelta c = 0 :=
      chDelta_of_noBrk (fun hx => hc (Or.inl hx)) (fun hx => hc (Or.inr hx))
    have ht := ih (fun d hd => h d (by simp [hd]))
    refine ⟨?_, ?_⟩
    · show chDelta c + deltaL t = 0
      rw [hz, ht.1, add_zero]
    · show max 0 (chDelta c + peakL t) = 0
      rw [hz, ht.2, add_zero, max_self]

theorem noBrkStr_deltaL_peakL {s : String} (h : noBrkStr s = true) :
    deltaL s.data = 0 ∧ peakL s.data = 0 := by
  apply deltaL_peakL_of_noBrk
  intro c hc
  have hcc := List.all_eq_true.mp h c hc
  simp only [Bool.not_eq_true', Bool.or_eq_false_iff,
    decide_eq_false_iff_not] at hcc
  intro hor
  cases hor with
  | inl h1 => exact hcc.1 h1
  | inr h2 => exact hcc.2 h2

theorem formatTypeInDoc_depth (tp ns : String) :
    ∀ t : DataType, fmtLeafOk tp ns t = true →
      deltaL (formatTypeInDoc tp ns t).data = 0 ∧
      peakL (formatTypeInDoc tp ns t).data = (wrapperDepth t : Int)
  | .void, h => by
    obtain ⟨d, p⟩ := noBrkStr_deltaL_peakL (s := formatTypeInDoc tp ns .void) h
    exact ⟨d, by rw [p]; rfl⟩
  | .primitive n, h => by
    obtain ⟨d, p⟩ :=
      noBrkStr_deltaL_peakL (s := formatTypeInDoc tp ns (.primitive n)) h
    exact ⟨d, by rw [p]; rfl⟩
  | .struct_ a b c d e, h => by
    obtain ⟨hd, hp⟩ :=
      noBrkStr_deltaL_peakL (s := formatTypeInDoc tp ns (.struct_ a b c d e)) h
    exact ⟨hd, by rw [hp]; rfl⟩
  | .union_ a b c d, h => by
    obtain ⟨hd, hp⟩ :=
      noBrkStr_deltaL_peakL (s := formatTypeInDoc tp ns (.union_ a b c d)) h
    exact ⟨hd, by rw [hp]; rfl⟩
  | .nullable u, h => by
    obtain ⟨ihd, ihp⟩ := formatTypeInDoc_depth tp ns u h
    have c1 : deltaL "Nullable[".data = 1 := by decide
    have c2 : peakL "Nullable[".data = 1 := by decide
    have c3 : deltaL "]".data = -1 := by decide
    have c4 : peakL "]".data = 0 := by decide
    have hw : (0 : Int) ≤ (wrapperDepth u : Int) := Int.natCast_nonneg _
    simp only [formatTypeInDoc, String.data_append, deltaL_append, peakL_append,
      ihd, ihp, c1, c2, c3, c4, wrapperDepth]
    push_cast
    refine ⟨?_, ?_⟩ <;> first
      | trivial
      | omega
  | .list u, h => by
    obtain ⟨ihd, ihp⟩ := formatTypeInDoc_depth tp ns u h
    have c1 : deltaL "List[".data = 1 := by decide
    have c2 : peakL "List[".data = 1 := by decide
    have c3 : deltaL "]".data = -1 := by decide
    have c4 : peakL "]".data = 0 := by decide
    have hw : (0 : Int) ≤ (wrapperDepth u : Int) := Int.natCast_nonneg _
    simp only [formatTypeInDoc, String.data_append, deltaL_append, peakL_append,
      ihd, ihp, c1, c2, c3, c4, wrapperDepth]
    push_cast
    refine ⟨?_, ?_⟩ <;> first
      | trivial
      | omega
  | .map k v, h => by
    have hkv : (fmtLeafOk tp ns k && fmtLeafOk tp ns v) = true := h
    simp only [Bool.and_eq_true] at hkv
    have hk := hkv.1
    have hv := hkv.2
    obtain ⟨ihdk, ihpk⟩ := formatTypeInDoc_depth tp ns k hk
    obtain ⟨ihdv, ihpv⟩ := formatTypeInDoc_depth tp ns v hv
    have c1 : deltaL "Map[".data = 1 := by decide
    have c2 : peakL "Map[".data = 1 := by decide
    have c3 : deltaL "]".data = -1 := by decide
    have c4 : peakL "]".data = 0 := by decide
    have c5 : deltaL ", ".data = 0 := by decide
    have c6 : peakL ", ".data = 0 := by decide
    have hwk : (0 : Int) ≤ (wrapperDepth k : Int) := Int.natCast_nonneg _
    have hwv : (0 : Int) ≤ (wrapperDepth v : Int) := Int.natCast_nonneg _
    simp only [formatTypeInDoc, String.data_append, deltaL_append, peakL_append,
      ihdk, ihpk, ihdv, ihpv, c1, c2, c3, c4, c5, c6, wrapperDepth]
    push_cast
    refine ⟨?_, ?_⟩ <;> first
      | trivial
      | omega

/-! ## Claim theorems -/

/-- C1 (counterexample): the claim says a docstring is emitted whenever
`extraRequestParams` is non-empty, but for an upload-style route with Void
argument and no doc text the composer is called with the binary-payload
extra request arg and still produces NO docstring: the absence gate
(line 383) never consults `extra_request_args`. -/
theorem C1_counterexample :
    ([("f", some "bytes", "Contents to upload.")] :
        List (String × Option String × String)) ≠ [] ∧
    genDoc ⟨"stone_types", ".exceptions.ApiError"⟩ "files" .void .void .void
      none [("f", some "bytes", "Contents to upload.")] none none id = none := by
  exact ⟨by decide, rfl⟩

/-- C1 (amended): the docstring composer produces no docstring exactly when
there is no (truthy) overview text and the argument type contributes no own
fields (Void, an empty Struct, or an empty Union) — `extraRequestParams`
are NOT consulted by the absence gate; in every other case a
delimiter-framed docstring is emitted.  In particular, a Void-argument
route with no doc text gets no docstring.  The shape hypothesis restricts
to the argument shapes the source can reach without raising. -/
theorem C1_docstring_absent_iff (cfg : Cfg) (nsName : String)
    (argDataType resultDataType errorDataType : DataType)
    (overview : Option String)
    (extraRequestArgs : List (String × Option String × String))
    (extraReturnArg footer : Option String) (procDoc : String → String)
    (hshape : (isVoidType argDataType || isStructType argDataType ||
      isUnionType argDataType) = true) :
    genDoc cfg nsName argDataType resultDataType errorDataType overview
        extraRequestArgs extraReturnArg footer procDoc = none ↔
      (docFields argDataType = [] ∧ strTruthy overview = false) := by
  simp only [genDoc]
  rcases hO : strTruthy overview with _ | _ <;>
    rcases hF : (docFields argDataType).isEmpty with _ | _ <;>
      simp_all [List.isEmpty_iff]

/-- C1 (witness): the amended theorem applied to a Void-argument route with
no doc text. -/
theorem C1_witness :
    (isVoidType .void || isStructType .void || isUnionType .void) = true ∧
    genDoc ⟨"stone_types", ".exceptions.ApiError"⟩ "files" .void .void .void
      none [] none none id = none := by
  refine ⟨by decide, ?_⟩
  exact (C1_docstring_absent_iff ⟨"stone_types", ".exceptions.ApiError"⟩
    "files" .void .void .void none [] none none id (by decide)).mpr
    ⟨rfl, rfl⟩

/-- C4: with an auth whitelist configured, a route without an `auth` attr
yields no variants; a route with an `auth` attr is included — with exactly
the standard one-or-two-variant emission, hence exactly once — precisely
when some whitelist entry occurs among its normalized comma-split auth
tokens (the source's for-with-break makes the first matching whitelist
entry the only one that emits). -/
theorem C4_auth_whitelist (wl : List String) (r : Route) :
    (attrsGet r.attrs "auth" = none → routeVariants (some wl) r = []) ∧
    (∀ authAttr, attrsGet r.attrs "auth" = some authAttr →
      routeVariants (some wl) r =
        if wl.any (fun b => (routeAuthModes authAttr).contains b) then
          stdVariants r
        else []) := by
  constructor
  · intro h
    simp [routeVariants, h]
  · intro authAttr h
    simp only [routeVariants, h]
    induction wl with
    | nil => simp [authLoop]
    | cons b rest ih =>
      by_cases hb : b ∈ routeAuthModes authAttr
      · simp [authLoop, hb]
      · simp [authLoop, hb, ih]

/-- C4 (witness): the spec's example — auth filter `{"x"}` and a route with
auth attr `"x,y"` — is emitted exactly once (a single standard variant),
even though several tokens could match. -/
theorem C4_auth_whitelist_witness :
    attrsGet ([("auth", "x,y")] : List (String × String)) "auth" =
      some "x,y" ∧
    routeVariants (some ["x"])
      ⟨"r", 1, .void, .void, .void, none, [("auth", "x,y")]⟩ = [false] := by
  refine ⟨rfl, ?_⟩
  have h := (C4_auth_whitelist ["x"]
    ⟨"r", 1, .void, .void, .void, none, [("auth", "x,y")]⟩).2 "x,y" rfl
  rw [h]
  decide

/-- C5: with no auth whitelist every route is included: a route whose
`style` attr is `download` yields exactly the standard variant plus the
download-to-file variant, and the download-to-file variant's prototype
carries the `_to_file` name suffix and the extra leading `download_path`
argument right after `self`; any other route yields exactly the single
standard variant. -/
theorem C5_no_whitelist_variants (nsName : String) (r : Route) :
    (attrsGet r.attrs "style" = some "download" →
      routeVariants none r = [false, true] ∧
      ∀ d, routeHelperDecl nsName r true = some d →
        d.fullName = routeMethodFullName nsName r.name r.version "_to_file" ∧
        ∃ rest, d.args = "self" :: "download_path" :: rest) ∧
    (attrsGet r.attrs "style" ≠ some "download" →
      routeVariants none r = [false]) := by
  constructor
  · intro hs
    constructor
    · simp [routeVariants, stdVariants, hs]
    · intro d hd
      rcases hfa : declFieldArgs r.argDataType with _ | fa
      · simp [routeHelperDecl, routeMethodDecl, hs, hfa] at hd
      · simp only [routeHelperDecl, routeMethodDecl, hs, hfa] at hd
        simp at hd
        refine ⟨?_, fa, ?_⟩
        · rw [← hd]
        · rw [← hd]
  · intro hs
    simp [routeVariants, stdVariants, hs]

/-- C5 (witness): a download-style route yields two variants, and its
to-file prototype is `<ns>_<route>_to_file(self, download_path, ...)`. -/
theorem C5_no_whitelist_variants_witness :
    routeVariants none
      ⟨"download", 1, .void, .void, .void, none, [("style", "download")]⟩ =
      [false, true] ∧
    routeHelperDecl "files"
      ⟨"download", 1, .void, .void, .void, none, [("style", "download")]⟩
      true = some ⟨"files_download_to_file", ["self", "download_path"]⟩ ∧
    routeVariants none
      ⟨"copy", 1, .void, .void, .void, none, []⟩ = [false] := by
  refine ⟨?_, by decide, ?_⟩
  · exact ((C5_no_whitelist_variants "files"
      ⟨"download", 1, .void, .void, .void, none, [("style", "download")]⟩).1
      rfl).1
  · exact (C5_no_whitelist_variants "files"
      ⟨"copy", 1, .void, .void, .void, none, []⟩).2 (by decide)

/-- C6 (counterexample): called with a namespace different from the one the
TagRef's union records, the renderer emits the PASSED namespace, not the
union's recorded namespace — refuting the claim that the namespace
component is always that of the TagRef's own recorded union type. -/
theorem C6_counterexample :
    generatePythonValue (some "other_ns") (.tagRef "union_ns" "U" "t") =
      some "other_ns.U.t" ∧
    ("other_ns.U.t" : String) ≠ "union_ns" ++ "." ++ "U" ++ "." ++ "t" := by
  exact ⟨rfl, by decide⟩

/-- C6 (amended): for a TagRef default the renderer produces
`<passed-namespace>.<UnionClassName>.<tag-field-name>`, where the namespace
component comes from the renderer's namespace PARAMETER and the class
component from the TagRef's recorded union type; at the signature-builder
call site that parameter is the field's own data type's namespace, so the
rendered namespace coincides with the TagRef's union's namespace exactly
when the field's type is that union. -/
theorem C6_tagref_render (n uNs uName tag fname ftName : String)
    (vs : List Field) (udoc fdoc : Option String) :
    generatePythonValue (some n) (.tagRef uNs uName tag) =
      some (fmt_namespace n ++ "." ++ class_name_for_union uName ++ "." ++
        fmt_var tag) ∧
    paramOfField (.mk fname (.union_ uNs ftName vs udoc) fdoc true
        (.tagRef uNs uName tag)) =
      some (fname ++ "=" ++ (fmt_namespace uNs ++ "." ++
        class_name_for_union uName ++ "." ++ fmt_var tag)) := by
  constructor
  · rfl
  · simp [paramOfField, generatePythonValue, isNullableType, isUserDefinedType,
      Field.dataType, Field.hasDefault, Field.defaultVal, Field.name,
      DataType.namespaceName]

/-- C9: whenever the composer writes a (truthy) overview, a docstring is
produced and exactly one of the two blank-separator insertions fires: the
one before the parameter section (when an explicit field or extra request
parameter follows) or the one after the overview (when none does) — never
both, never neither. -/
theorem C9_blank_separator (cfg : Cfg) (nsName : String)
    (argDataType resultDataType errorDataType : DataType)
    (overview : Option String)
    (extraRequestArgs : List (String × Option String × String))
    (extraReturnArg footer : Option String) (procDoc : String → String)
    (hov : strTruthy overview = true) :
    genDoc cfg nsName argDataType resultDataType errorDataType overview
        extraRequestArgs extraReturnArg footer procDoc ≠ none ∧
    blankSepBeforeParams overview extraRequestArgs (docFields argDataType) =
      !blankSepAfterOverview overview extraRequestArgs
        (docFields argDataType) := by
  constructor
  · simp [genDoc, hov]
  · simp only [blankSepBeforeParams, blankSepAfterOverview, hov]
    cases (!extraRequestArgs.isEmpty || !(docFields argDataType).isEmpty) <;>
      simp

/-- C9 (witness): the theorem applied to a route with only an overview. -/
theorem C9_blank_separator_witness :
    strTruthy (some "Overview.") = true ∧
    genDoc ⟨"stone_types", ".exceptions.ApiError"⟩ "files" .void .void .void
      (some "Overview.") [] none none id ≠ none ∧
    blankSepBeforeParams (some "Overview.") [] (docFields .void) =
      !blankSepAfterOverview (some "Overview.") [] (docFields .void) := by
  have h := C9_blank_separator ⟨"stone_types", ".exceptions.ApiError"⟩
    "files" .void .void .void (some "Overview.") [] none none id (by decide)
  exact ⟨by decide, h.1, h.2⟩

theorem mapM_paramOfField_length {l : List Field} {ps : List String}
    (h : l.mapM paramOfField = some ps) : ps.length = l.length := by
  induction l generalizing ps with
  | nil =>
    simp only [List.mapM_nil, pure, Option.some_inj] at h
    simp [← h]
  | cons f t ih =>
    rw [List.mapM_cons] at h
    cases hf : paramOfField f with
    | none => rw [hf] at h; simp at h
    | some s =>
      rw [hf] at h
      cases ht : t.mapM paramOfField with
      | none => rw [ht] at h; simp at h
      | some ts =>
        rw [ht] at h
        simp at h
        simp [← h, ih ht]

/-- C10: the docstring composer reads only the struct argument's OWN
fields — its output is invariant under the inherited fields, and a struct
with no own fields and no doc text gets no docstring at all — while the
signature builder expands ALL fields (inherited first) and the
argument-construction body lists all field names including inherited
ones.  Consequently inherited-field parameters never receive `:param` or
`:type` documentation lines. -/
theorem C10_inherited_fields (cfg : Cfg) (nsName : String) (r : Route)
    (nsS nS : String) (inh own : List Field) (sdoc : Option String)
    (resultDataType errorDataType : DataType) (overview : Option String)
    (extraRequestArgs : List (String × Option String × String))
    (extraReturnArg footer : Option String) (procDoc : String → String)
    (requestBinaryBody : Bool) :
    genDoc cfg nsName (.struct_ nsS nS inh own sdoc) resultDataType
        errorDataType overview extraRequestArgs extraReturnArg footer
        procDoc =
      genDoc cfg nsName (.struct_ nsS nS [] own sdoc) resultDataType
        errorDataType overview extraRequestArgs extraReturnArg footer
        procDoc ∧
    (own = [] → strTruthy overview = false →
      genDoc cfg nsName (.struct_ nsS nS inh own sdoc) resultDataType
        errorDataType overview extraRequestArgs extraReturnArg footer
        procDoc = none) ∧
    (∀ ps, (inh ++ own).mapM paramOfField = some ps →
      routeMethodDecl nsName r (.struct_ nsS nS inh own sdoc)
          requestBinaryBody "" [] =
        some ⟨routeMethodFullName nsName r.name r.version "",
          (["self"] ++ (if requestBinaryBody then ["f"] else [])) ++ ps⟩ ∧
      ps.length = inh.length + own.length) ∧
    bodyArgLines (.struct_ nsS nS inh own sdoc) =
      some ["arg = " ++ fmt_namespace nsS ++ "." ++ fmt_class nS ++ "(" ++
        String.intercalate ", " ((inh ++ own).map Field.name) ++ ")"] := by
  refine ⟨rfl, ?_, ?_, rfl⟩
  · intro h1 h2
    simp [genDoc, docFields, fieldsOf, isVoidType, h1, h2]
  · intro ps hps
    refine ⟨?_, ?_⟩
    · have hd : declFieldArgs (.struct_ nsS nS inh own sdoc) = some ps := by
        rw [show declFieldArgs (.struct_ nsS nS inh own sdoc) =
          (inh ++ own).mapM paramOfField from rfl, hps]
      simp [routeMethodDecl, hd]
    · rw [mapM_paramOfField_length hps, List.length_append]

/-- C10 (witness): a struct with one inherited required field and no own
fields — the method gets the inherited parameter but no docstring. -/
theorem C10_inherited_fields_witness :
    genDoc ⟨"stone_types", ".exceptions.ApiError"⟩ "files"
      (.struct_ "files" "Arg"
        [.mk "base" (.primitive "String") none false (.literal "")] [] none)
      .void .void none [] none none id = none ∧
    routeMethodDecl "files" ⟨"r", 1, .void, .void, .void, none, []⟩
      (.struct_ "files" "Arg"
        [.mk "base" (.primitive "String") none false (.literal "")] [] none)
      false "" [] = some ⟨"files_r", ["self", "base"]⟩ := by
  have h := C10_inherited_fields ⟨"stone_types", ".exceptions.ApiError"⟩
    "files" ⟨"r", 1, .void, .void, .void, none, []⟩ "files" "Arg"
    [.mk "base" (.primitive "String") none false (.literal "")] [] none
    .void .void none [] none none id false
  refine ⟨h.2.1 rfl rfl, ?_⟩
  rw [(h.2.2.1 ["base"] (by decide)).1]
  decide

/-- C3: for a Struct argument the signature builder emits one parameter
per `all_fields` entry in exactly field-declaration order (after the fixed
leading `self`/extra/binary parameters), and each parameter is determined
by the three-branch priority of the spec-side `specParamOfField`: a
Nullable-typed field defaults to the `None` sentinel (even when it also
`has_default`), else a defaulted field gets the rendered default, else the
parameter is required with no default.  The hypothesis excludes only the
renderer crash (a TagRef default on a non-user-defined field type),
unreachable in well-formed IR. -/
theorem C3_struct_signature (nsName : String) (r : Route) (nsS nS : String)
    (inh own : List Field) (sdoc : Option String) (requestBinaryBody : Bool)
    (suffix : String) (extraArgs : List String)
    (hwf : ∀ f ∈ inh ++ own, fieldRenderOk f = true) :
    routeMethodDecl nsName r (.struct_ nsS nS inh own sdoc) requestBinaryBody
        suffix extraArgs =
      some ⟨routeMethodFullName nsName r.name r.version suffix,
        (["self"] ++ extraArgs ++
          (if requestBinaryBody then ["f"] else [])) ++
          (inh ++ own).map specParamOfField⟩ ∧
    (∀ f : Field, isNullableType f.dataType = true →
      specParamOfField f = f.name ++ "=None") ∧
    (∀ f : Field, isNullableType f.dataType = false → f.hasDefault = true →
      specParamOfField f = f.name ++ "=" ++
        (generatePythonValue
          (if isUserDefinedType f.dataType then some f.dataType.namespaceName
           else none) f.defaultVal).getD "") ∧
    (∀ f : Field, isNullableType f.dataType = false → f.hasDefault = false →
      specParamOfField f = f.name) := by
  refine ⟨?_, ?_, ?_, ?_⟩
  · have hd : declFieldArgs (.struct_ nsS nS inh own sdoc) =
        some ((inh ++ own).map specParamOfField) := by
      rw [show declFieldArgs (.struct_ nsS nS inh own sdoc) =
        (inh ++ own).mapM paramOfField from rfl,
        mapM_paramOfField_eq (inh ++ own) hwf]
    simp [routeMethodDecl, hd]
  · intro f h
    simp [specParamOfField, h]
  · intro f h1 h2
    simp [specParamOfField, h1, h2]
  · intro f h1 h2
    simp [specParamOfField, h1, h2]

/-- C3 (witness): a struct whose three fields hit the three branches; the
first field is Nullable AND has a default, and still gets the `None`
sentinel (nullable wins). -/
theorem C3_struct_signature_witness :
    (∀ f ∈ ([.mk "a" (.nullable (.primitive "String")) none true (.literal "'x'"),
             .mk "b" (.primitive "UInt64") none true (.literal "3"),
             .mk "c" (.primitive "String") none false (.literal "")] :
        List Field), fieldRenderOk f = true) ∧
    routeMethodDecl "files" ⟨"r", 1, .void, .void, .void, none, []⟩
      (.struct_ "files" "Arg" []
        [.mk "a" (.nullable (.primitive "String")) none true (.literal "'x'"),
         .mk "b" (.primitive "UInt64") none true (.literal "3"),
         .mk "c" (.primitive "String") none false (.literal "")] none)
      false "" [] =
      some ⟨"files_r", ["self", "a=None", "b=3", "c"]⟩ := by
  refine ⟨by decide, ?_⟩
  rw [(C3_struct_signature "files" ⟨"r", 1, .void, .void, .void, none, []⟩
    "files" "Arg" []
    [.mk "a" (.nullable (.primitive "String")) none true (.literal "'x'"),
     .mk "b" (.primitive "UInt64") none true (.literal "3"),
     .mk "c" (.primitive "String") none false (.literal "")] none
    false "" [] (by decide)).1]
  decide

/-- C7: the type-documentation formatter is total (it terminates on every
finite DataType tree, witnessed by its structural recursion), renders Void
as `None` and each wrapper by the corresponding bracket form, and — when
every leaf of the tree renders bracket-free, as IR identifiers do — the
bracket-nesting depth of its output equals the structural wrapper depth of
the tree. -/
theorem C7_format_depth (tp ns : String) (t : DataType)
    (h : fmtLeafOk tp ns t = true) :
    nestDepth (formatTypeInDoc tp ns t) = (wrapperDepth t : Int) ∧
    formatTypeInDoc tp ns .void = "None" ∧
    (∀ u, formatTypeInDoc tp ns (.nullable u) =
      "Nullable[" ++ formatTypeInDoc tp ns u ++ "]") ∧
    (∀ u, formatTypeInDoc tp ns (.list u) =
      "List[" ++ formatTypeInDoc tp ns u ++ "]") ∧
    (∀ k v, formatTypeInDoc tp ns (.map k v) =
      "Map[" ++ formatTypeInDoc tp ns k ++ ", " ++
        formatTypeInDoc tp ns v ++ "]") :=
  ⟨(formatTypeInDoc_depth tp ns t h).2, rfl, fun _ => rfl, fun _ => rfl,
    fun _ _ => rfl⟩

/-- C7 (witness): a depth-3 nesting `Map[List[Nullable[String]], UInt64]`
renders with bracket-nesting depth 3. -/
theorem C7_format_depth_witness :
    fmtLeafOk "stone_types" "files"
      (.map (.list (.nullable (.primitive "String")))
        (.primitive "UInt64")) = true ∧
    nestDepth (formatTypeInDoc "stone_types" "files"
      (.map (.list (.nullable (.primitive "String")))
        (.primitive "UInt64"))) = 3 := by
  refine ⟨by decide, ?_⟩
  rw [(C7_format_depth "stone_types" "files"
    (.map (.list (.nullable (.primitive "String"))) (.primitive "UInt64"))
    (by decide)).1]
  decide

/-- C2: for a route name without `.` or `:` and any version, resolving the
`route` doc tag against the current-namespace context — from the bare name
(version defaulting to 1) or from the `name:version` form — yields a method
reference whose name is exactly the full method name the route-declaration
generator produces for that route with an empty suffix: the two naming
computations agree. -/
theorem C2_route_tag_matches_decl (ctx : DocfCtx) (rname vstr : String)
    (v : Nat) (hdot : rname.data.contains '.' = false)
    (hcolon : rname.data.contains ':' = false)
    (hv : pyInt vstr = some v) :
    docf ctx "route" rname =
      some (":meth:`" ++
        routeMethodFullName ctx.curNamespaceName rname 1 "" ++ "`") ∧
    docf ctx "route" (rname ++ ":" ++ vstr) =
      some (":meth:`" ++
        routeMethodFullName ctx.curNamespaceName rname v "" ++ "`") := by
  have hc : (':' : Char) ∉ rname.data := by simpa using hcolon
  have hd2 : ('.' : Char) ∉ rname.data := by simpa using hdot
  constructor
  · have h1 : splitFirstAux ':' rname.data = none := splitFirstAux_of_not_mem hc
    simp only [docf, h1]
    simp [hd2, routeMethodFullName, fmt_func, fmt_underscores,
      String.append_assoc]
  · have h2 : (rname ++ ":" ++ vstr).data = rname.data ++ ':' :: vstr.data := by
      simp [String.data_append]
    have h3 : splitFirstAux ':' (rname ++ ":" ++ vstr).data =
        some (rname.data, vstr.data) := by
      rw [h2]
      exact splitFirstAux_append hc
    simp only [docf, h3]
    have h4 : String.mk rname.data = rname := rfl
    have h5 : String.mk vstr.data = vstr := rfl
    rw [h4, h5, hv]
    simp [hd2, routeMethodFullName, fmt_func, fmt_underscores,
      String.append_assoc]

/-- C2 (witness): `:route:`copy`` and `:route:`copy:2`` in namespace
`files` resolve to the generated method names. -/
theorem C2_route_tag_matches_decl_witness :
    ("copy".data.contains '.' = false) ∧
    ("copy".data.contains ':' = false) ∧
    pyInt "2" = some 2 ∧
    docf ⟨"files", "stone_types"⟩ "route" "copy" =
      some (":meth:`" ++ routeMethodFullName "files" "copy" 1 "" ++ "`") ∧
    docf ⟨"files", "stone_types"⟩ "route" ("copy" ++ ":" ++ "2") =
      some (":meth:`" ++ routeMethodFullName "files" "copy" 2 "" ++ "`") := by
  have h := C2_route_tag_matches_decl ⟨"files", "stone_types"⟩ "copy" "2" 2
    (by decide) (by decide) (by decide)
  exact ⟨by decide, by decide, by decide, h.1, h.2⟩

/-- C8: the doc-reference resolver maps `val null` to `None`, `val
true`/`val false` to the capitalized emphasized forms, any other `val`
through verbatim; `link` splits its value at the last space into anchor and
url and produces the hyperlink form; and `type` on a dot-less identifier
resolves exactly as the same identifier qualified with the current
namespace. -/
theorem C8_docf_resolution (ctx : DocfCtx) (v anchor url foo : String) :
    docf ctx "val" "null" = some "None" ∧
    docf ctx "val" "true" = some "``True``" ∧
    docf ctx "val" "false" = some "``False``" ∧
    (v ≠ "null" → v ≠ "true" → v ≠ "false" → docf ctx "val" v = some v) ∧
    (url.data.contains ' ' = false →
      docf ctx "link" (anchor ++ " " ++ url) =
        some ("`" ++ anchor ++ " <" ++ url ++ ">`_")) ∧
    (foo.data.contains '.' = false →
      docf ctx "type" foo =
        docf ctx "type" (ctx.curNamespaceName ++ "." ++ foo)) := by
  refine ⟨rfl, rfl, rfl, ?_, ?_, ?_⟩
  · intro h1 h2 h3
    simp [docf, h1, h2, h3]
  · intro hu
    have hu2 : (' ' : Char) ∉ url.data := by simpa using hu
    have hdata : (anchor ++ " " ++ url).data =
        anchor.data ++ ' ' :: url.data := by
      simp [String.data_append]
    have hsplit : rsplitLastSpace (anchor ++ " " ++ url) =
        some (anchor, url) := by
      rw [rsplitLastSpace, hdata, rsplitLastAux_append anchor.data hu2]
      rfl
    have hsplit2 : rsplitLastSpace (anchor ++ (" " ++ url)) =
        some (anchor, url) := by
      rw [← String.append_assoc]
      exact hsplit
    simp [docf, String.append_assoc]
    exact ⟨anchor, url, hsplit2, rfl⟩
  · intro hf
    have hf2 : ('.' : Char) ∉ foo.data := by simpa using hf
    have hmem : ('.' : Char) ∈ (ctx.curNamespaceName ++ "." ++ foo).data := by
      simp [String.data_append]
    simp [docf, hf2, hmem]

/-- C8 (witness): the theorem applied at the spec's examples. -/
theorem C8_docf_resolution_witness :
    docf ⟨"files", "stone_types"⟩ "val" "null" = some "None" ∧
    docf ⟨"files", "stone_types"⟩ "val" "yes" = some "yes" ∧
    docf ⟨"files", "stone_types"⟩ "link"
      ("Docs" ++ " " ++ "http://example.com") =
      some ("`" ++ "Docs" ++ " <" ++ "http://example.com" ++ ">`_") ∧
    docf ⟨"files", "stone_types"⟩ "type" "Foo" =
      docf ⟨"files", "stone_types"⟩ "type" ("files" ++ "." ++ "Foo") := by
  have h := C8_docf_resolution ⟨"files", "stone_types"⟩ "yes" "Docs"
    "http://example.com" "Foo"
  exact ⟨h.1, h.2.2.2.1 (by decide) (by decide) (by decide),
    h.2.2.2.2.1 (by decide), h.2.2.2.2.2 (by decide)⟩

end StonePy
